import Mathlib

/-
Verification of chemprot_to_standoff.py, a script converting the ChemProt
corpus (tab-separated abstracts, entities and relations keyed by PubMed id)
into Brat-flavoured standoff format.

Shallow embedding conventions:
  - a Python string is a List Char (type Line below);
  - a text file open for reading is a List Line, each element being one line
    as Python file iteration yields it, that is including its terminating
    newline character (so a blank line in the file is the one-character
    string containing only a newline, never the empty string);
  - Python str.strip() with no argument is pyStrip, str.split(sep) for a
    one-character separator is splitCh, sep.join is joinSep;
  - a Python dict is an association list in insertion order: assignment to
    a fresh key appends at the end, assignment to a present key updates the
    value in place (dictSet), and the read-modify-append idiom used by the
    parsers is dictAppend;
  - a ValueError raised by tuple unpacking is Except.error ().
-/

/-- Characters removed by Python str.strip with no argument, restricted to
the ASCII range: space, tab, newline, carriage return, vertical tab and
form feed. -/
def isPyWs (c : Char) : Bool :=
  c = ' ' || c = '\t' || c = '\n' || c = '\r' || c = Char.ofNat 11 || c = Char.ofNat 12

/-- A Python string, as a list of characters. -/
abbrev Line := List Char

/-- Model of Python str.strip with no argument: remove leading and trailing
whitespace. -/
def pyStrip (s : Line) : Line :=
  (((s.dropWhile isPyWs).reverse).dropWhile isPyWs).reverse

/-- Worker for splitCh, accumulating the current field in reverse. -/
def splitChAux (sep : Char) : Line → Line → List Line
  | [], acc => [acc.reverse]
  | c :: rest, acc =>
      if c = sep then acc.reverse :: splitChAux sep rest []
      else splitChAux sep rest (c :: acc)

/-- Model of Python str.split with a one-character separator: the empty
string yields the singleton list holding the empty string, exactly as in
Python. -/
def splitCh (sep : Char) (s : Line) : List Line := splitChAux sep s []

/-- Model of Python sep.join for a one-character separator. -/
def joinSep (sep : Char) : List Line → Line
  | [] => []
  | [x] => x
  | x :: y :: rest => x ++ sep :: joinSep sep (y :: rest)

/-- Newline join, as used to serialise each document annotation block. -/
def joinNl (xs : List Line) : Line := joinSep '\n' xs

/-- Lookup in a Python dict modelled as an association list: the dict never
holds duplicate keys, so first match is the value. -/
def dlookup (d : Line) : List (Line × α) → Option α
  | [] => none
  | (k, v) :: rest => if k = d then some v else dlookup d rest

/-- Model of dict assignment: update the value in place when the key is
present, otherwise append the new key at the end (Python dicts preserve
insertion order). -/
def dictSet (m : List (Line × α)) (k : Line) (v : α) : List (Line × α) :=
  match m with
  | [] => [(k, v)]
  | (k', v') :: rest => if k' = k then (k', v) :: rest else (k', v') :: dictSet rest k v

/-- Model of the parser idiom: ensure the key maps to a list, then append
one element to that list. -/
def dictAppend (m : List (Line × List Line)) (k : Line) (v : Line) :
    List (Line × List Line) :=
  match m with
  | [] => [(k, [v])]
  | (k', vs) :: rest =>
      if k' = k then (k', vs ++ [v]) :: rest else (k', vs) :: dictAppend rest k v

/-- The key expression of the abstract dict comprehension: the first
tab-field of the line. Indexing split output at 0 never fails in Python
because split never returns an empty list. -/
def abstKey (abst : Line) : Line := (splitCh '\t' abst).headD []

/-- The value expression of the abstract dict comprehension: the newline
join of all tab-fields after the first. -/
def abstVal (abst : Line) : Line := joinNl (splitCh '\t' abst).tail

/-- The abstract dict comprehension, processing lines left to right; a
later line with a duplicate key overwrites the earlier value. -/
def abstFold (m : List (Line × Line)) (rows : List Line) : List (Line × Line) :=
  rows.foldl (fun m abst => dictSet m (abstKey abst) (abstVal abst)) m

/-- Embedding of convert_abstracts_to_standoff: read the whole file, strip
it, split into lines on newline, and build the dict comprehension mapping
the first tab-field of each line to the newline-join of the remaining
tab-fields. The argument is the entire file content as one string. -/
def convert_abstracts_to_standoff (content : Line) : List (Line × Line) :=
  abstFold [] (splitCh '\n' (pyStrip content))

/-- The entity annotation line the source formats for one row. -/
def fmtEnt (T lab so eo txt : Line) : Line :=
  T ++ '\t' :: (lab ++ ' ' :: (so ++ ' ' :: (eo ++ '\t' :: txt)))

/-- One iteration of the entity-parsing loop: skip the line when it is the
empty string, otherwise strip it, split on tabs and unpack exactly six
fields, raising ValueError on any other field count. -/
def entStep (acc : List (Line × List Line)) (line : Line) :
    Except Unit (List (Line × List Line)) :=
  if line = [] then .ok acc
  else
    match splitCh '\t' (pyStrip line) with
    | [pmid, T, lab, so, eo, txt] => .ok (dictAppend acc pmid (fmtEnt T lab so eo txt))
    | _ => .error ()

/-- Embedding of convert_entities_to_standoff: fold the loop body over the
lines of the file, then join each document annotation list with newlines. -/
def convert_entities_to_standoff (f : List Line) : Except Unit (List (Line × Line)) :=
  match f.foldlM entStep [] with
  | .error e => .error e
  | .ok m => .ok (m.map fun kv => (kv.1, joinNl kv.2))

/-- The relation annotation line the source formats for one row, given the
current value of the counter R. -/
def fmtRel (R : Nat) (lab a1 a2 : Line) : Line :=
  'R' :: ((Nat.repr R).data ++ '\t' :: (lab ++ ' ' :: (a1 ++ ' ' :: a2)))

/-- One iteration of the relation-parsing loop. The state carries the
counter R and the dict; R is reset to 1 exactly when the row belongs to a
document id not seen before, and is incremented after every emitted row. -/
def relStep (st : Nat × List (Line × List Line)) (line : Line) :
    Except Unit (Nat × List (Line × List Line)) :=
  if line = [] then .ok st
  else
    match splitCh '\t' (pyStrip line) with
    | [pmid, lab, a1, a2] =>
        let R := if (dlookup pmid st.2).isSome then st.1 else 1
        .ok (R + 1, dictAppend st.2 pmid (fmtRel R lab a1 a2))
    | _ => .error ()

/-- Embedding of convert_relations_to_standoff: the counter starts at 1,
the loop body folds over the lines, and each document annotation list is
joined with newlines at the end. -/
def convert_relations_to_standoff (f : List Line) : Except Unit (List (Line × Line)) :=
  match f.foldlM relStep (1, []) with
  | .error e => .error e
  | .ok st => .ok (st.2.map fun kv => (kv.1, joinNl kv.2))

/-- Embedding of the merge loop in main: for every pmid of the entity dict
that is also a key of the relation dict, replace the entity block by the
entity block, a newline, and the relation block. -/
def mergeAnn (ents rels : List (Line × Line)) : List (Line × Line) :=
  ents.map fun kv =>
    match dlookup kv.1 rels with
    | some r => (kv.1, kv.2 ++ '\n' :: r)
    | none => kv

/-- Output file path built by write_to_disk via os.path.join. -/
def mkPath (outputDir pmid ext : Line) : Line :=
  outputDir ++ '/' :: (pmid ++ '.' :: ext)

/-- Embedding of write_to_disk: one file per dict entry, named from the
pmid and the extension, holding the entry value. The result lists the
written files as pairs of path and content. -/
def write_to_disk (converted : List (Line × Line)) (outputDir ext : Line) :
    List (Line × Line) :=
  converted.map fun kv => (mkPath outputDir kv.1 ext, kv.2)

/-- Model of a Python OSError: only the errno field matters to the code. -/
structure OSErr where
  errno : Nat
deriving DecidableEq

/-- Value of errno.EEXIST. -/
def EEXIST : Nat := 17

/-- Value of errno.EACCES. -/
def EACCES : Nat := 13

/-- Abstract file-system state for the directory model: the directories
that exist and the paths on which creation is denied. -/
structure FS where
  dirs : List Line
  denied : List Line
deriving DecidableEq

/-- Model of os.makedirs: raise OSError with errno EEXIST when the target
directory already exists, raise OSError with errno EACCES when creation is
denied, and otherwise create the directory (creation of intermediate
directories is abstracted into the single path). -/
def makedirs (fs : FS) (d : Line) : Except OSErr FS :=
  if d ∈ fs.dirs then .error ⟨EEXIST⟩
  else if d ∈ fs.denied then .error ⟨EACCES⟩
  else .ok ⟨fs.dirs ++ [d], fs.denied⟩

/-- Embedding of make_dir: call os.makedirs and swallow exactly the OSError
whose errno is EEXIST, re-raising every other error. -/
def make_dir (fs : FS) (directory : Line) : Except OSErr FS :=
  match makedirs fs directory with
  | .ok fs' => .ok fs'
  | .error err => if err.errno ≠ EEXIST then .error err else .ok fs

/-- A string usable as a field of a tab-separated row: nonempty, holding no
tab, and neither starting nor ending with strippable whitespace, so that
stripping the surrounding line leaves every field intact. -/
abbrev CleanField (x : Line) : Prop :=
  x ≠ [] ∧ '\t' ∉ x ∧ isPyWs (x.headD 'a') = false ∧ isPyWs (x.reverse.headD 'a') = false

/-- A string usable as one line of the abstracts file: nonempty, holding no
newline, and neither starting nor ending with strippable whitespace. -/
abbrev CleanRow (x : Line) : Prop :=
  x ≠ [] ∧ '\n' ∉ x ∧ isPyWs (x.headD 'a') = false ∧ isPyWs (x.reverse.headD 'a') = false

/-- The tab-joined core of an entity row of the ChemProt entities file. -/
def entCore (p T lab so eo txt : Line) : Line :=
  p ++ '\t' :: (T ++ '\t' :: (lab ++ '\t' :: (so ++ '\t' :: (eo ++ '\t' :: txt))))

/-- One raw line of the entities file, newline terminator included. -/
def mkEntLine (p T lab so eo txt : Line) : Line := entCore p T lab so eo txt ++ ['\n']

/-- The tab-joined first five fields of an entity row, used to describe the
stripped form of a row whose sixth field is empty. -/
def entHead5 (p T lab so eo : Line) : Line :=
  p ++ '\t' :: (T ++ '\t' :: (lab ++ '\t' :: (so ++ '\t' :: eo)))

/-- The tab-joined core of a relation row of the gold-standard file. -/
def relCore (p lab a1 a2 : Line) : Line :=
  p ++ '\t' :: (lab ++ '\t' :: (a1 ++ '\t' :: a2))

/-- One raw line of the gold-standard relations file, newline terminator
included. -/
def mkRelLine (p lab a1 a2 : Line) : Line := relCore p lab a1 a2 ++ ['\n']

/-- The tab-joined first three fields of a relation row, used to describe
the stripped form of a row whose fourth field is empty. -/
def relHead3 (p lab a1 : Line) : Line := p ++ '\t' :: (lab ++ '\t' :: a1)

/-- The five data fields of one entity row, excluding the document id. -/
structure EntRow where
  typ : Line
  lab : Line
  so : Line
  eo : Line
  txt : Line

/-- The standoff line the source formats for one entity row. -/
def fmtEntRow (r : EntRow) : Line := fmtEnt r.typ r.lab r.so r.eo r.txt

/-- The raw input line carrying one entity row for the given document. -/
def mkEntLineRow (p : Line) (r : EntRow) : Line :=
  mkEntLine p r.typ r.lab r.so r.eo r.txt

/-- Well-formedness of one entity row: every field is clean. -/
abbrev CleanEntRow (r : EntRow) : Prop :=
  CleanField r.typ ∧ CleanField r.lab ∧ CleanField r.so ∧ CleanField r.eo ∧ CleanField r.txt

theorem headD_append_left (a b : Line) (d : Char) (ha : a ≠ []) :
    (a ++ b).headD d = a.headD d := by
  cases a with
  | nil => cases ha rfl
  | cons c cs => rfl

theorem revHead_skip (a : Line) (c : Char) (b : Line) (hb : b ≠ []) (d : Char) :
    ((a ++ c :: b).reverse).headD d = (b.reverse).headD d := by
  rw [List.reverse_append, List.reverse_cons, List.append_assoc]
  exact headD_append_left _ _ _ (by simpa using hb)

theorem dropWhile_isPyWs_eq_self (l : Line) (h : isPyWs (l.headD 'a') = false) :
    l.dropWhile isPyWs = l := by
  cases l with
  | nil => rfl
  | cons c cs =>
    rw [List.headD_cons] at h
    simp [List.dropWhile_cons, h]

theorem dropWhile_append_of_all (a b : Line) (h : ∀ c ∈ a, isPyWs c = true) :
    (a ++ b).dropWhile isPyWs = b.dropWhile isPyWs := by
  induction a with
  | nil => rfl
  | cons c cs ih =>
    rw [List.cons_append, List.dropWhile_cons, h c (List.mem_cons_self c cs)]
    exact ih fun c' hc' => h c' (List.mem_cons_of_mem c hc')

theorem pyStrip_id (x : Line) (h1 : isPyWs (x.headD 'a') = false)
    (h2 : isPyWs (x.reverse.headD 'a') = false) : pyStrip x = x := by
  unfold pyStrip
  rw [dropWhile_isPyWs_eq_self x h1, dropWhile_isPyWs_eq_self x.reverse h2,
    List.reverse_reverse]

theorem pyStrip_append_ws (x sfx : Line) (hx : x ≠ [])
    (h1 : isPyWs (x.headD 'a') = false) (h2 : isPyWs (x.reverse.headD 'a') = false)
    (hs : ∀ c ∈ sfx, isPyWs c = true) : pyStrip (x ++ sfx) = x := by
  unfold pyStrip
  rw [dropWhile_isPyWs_eq_self (x ++ sfx) (by rw [headD_append_left _ _ _ hx]; exact h1)]
  rw [List.reverse_append]
  rw [dropWhile_append_of_all _ _ (fun c hc => hs c (List.mem_reverse.mp hc))]
  rw [dropWhile_isPyWs_eq_self x.reverse h2, List.reverse_reverse]

theorem splitChAux_append_sep (sep : Char) (a rest acc : Line) (ha : sep ∉ a) :
    splitChAux sep (a ++ sep :: rest) acc = (acc.reverse ++ a) :: splitChAux sep rest [] := by
  induction a generalizing acc with
  | nil => simp [splitChAux]
  | cons c cs ih =>
    have hc : ¬c = sep := fun h => ha (h ▸ List.mem_cons_self c cs)
    rw [List.cons_append]
    show (if c = sep then _ else splitChAux sep (cs ++ sep :: rest) (c :: acc)) = _
    rw [if_neg hc, ih (c :: acc) (fun h => ha (List.mem_cons_of_mem c h))]
    simp [List.reverse_cons, List.append_assoc]

theorem splitChAux_no_sep (sep : Char) (a acc : Line) (ha : sep ∉ a) :
    splitChAux sep a acc = [acc.reverse ++ a] := by
  induction a generalizing acc with
  | nil => simp [splitChAux]
  | cons c cs ih =>
    have hc : ¬c = sep := fun h => ha (h ▸ List.mem_cons_self c cs)
    show (if c = sep then _ else splitChAux sep cs (c :: acc)) = _
    rw [if_neg hc, ih (c :: acc) (fun h => ha (List.mem_cons_of_mem c h))]
    simp [List.reverse_cons, List.append_assoc]

theorem splitCh_append_sep (sep : Char) (a rest : Line) (ha : sep ∉ a) :
    splitCh sep (a ++ sep :: rest) = a :: splitCh sep rest := by
  unfold splitCh
  rw [splitChAux_append_sep sep a rest [] ha]
  simp

theorem splitCh_no_sep (sep : Char) (a : Line) (ha : sep ∉ a) :
    splitCh sep a = [a] := by
  unfold splitCh
  rw [splitChAux_no_sep sep a [] ha]
  simp

theorem joinSep_ne_nil (sep : Char) (rows : List Line) (hne : rows ≠ [])
    (h : ∀ r ∈ rows, r ≠ []) : joinSep sep rows ≠ [] := by
  cases rows with
  | nil => cases hne rfl
  | cons x rest =>
    cases rest with
    | nil => exact h x (List.mem_cons_self x [])
    | cons y r2 =>
      show x ++ sep :: joinSep sep (y :: r2) ≠ []
      exact List.append_ne_nil_of_right_ne_nil x (List.cons_ne_nil sep _)

theorem joinSep_headD (sep d : Char) (x : Line) (rest : List Line) (hx : x ≠ []) :
    (joinSep sep (x :: rest)).headD d = x.headD d := by
  cases rest with
  | nil => rfl
  | cons y r2 =>
    show (x ++ sep :: joinSep sep (y :: r2)).headD d = x.headD d
    exact headD_append_left _ _ _ hx

theorem joinSep_head_edge (sep : Char) (rows : List Line) (hne : rows ≠ [])
    (h : ∀ r ∈ rows, r ≠ [] ∧ isPyWs (r.headD 'a') = false) :
    isPyWs ((joinSep sep rows).headD 'a') = false := by
  cases rows with
  | nil => cases hne rfl
  | cons x rest =>
    rw [joinSep_headD sep 'a' x rest (h x (List.mem_cons_self x rest)).1]
    exact (h x (List.mem_cons_self x rest)).2

theorem joinSep_rev_edge (sep : Char) (rows : List Line) (hne : rows ≠ [])
    (h : ∀ r ∈ rows, r ≠ [] ∧ isPyWs (r.reverse.headD 'a') = false) :
    isPyWs ((joinSep sep rows).reverse.headD 'a') = false := by
  induction rows with
  | nil => cases hne rfl
  | cons x rest ih =>
    cases rest with
    | nil => exact (h x (List.mem_cons_self x [])).2
    | cons y r2 =>
      show isPyWs ((x ++ sep :: joinSep sep (y :: r2)).reverse.headD 'a') = false
      rw [revHead_skip x sep (joinSep sep (y :: r2))
        (joinSep_ne_nil sep (y :: r2) (List.cons_ne_nil y r2)
          (fun r hr => (h r (List.mem_cons_of_mem x hr)).1)) 'a']
      exact ih (List.cons_ne_nil y r2) (fun r hr => h r (List.mem_cons_of_mem x hr))

theorem pyStrip_joinSep (rows : List Line) (hne : rows ≠ [])
    (hc : ∀ r ∈ rows, CleanRow r) :
    pyStrip (joinSep '\n' rows) = joinSep '\n' rows := by
  apply pyStrip_id
  · exact joinSep_head_edge '\n' rows hne (fun r hr => ⟨(hc r hr).1, (hc r hr).2.2.1⟩)
  · exact joinSep_rev_edge '\n' rows hne (fun r hr => ⟨(hc r hr).1, (hc r hr).2.2.2⟩)

theorem splitCh_joinSep (sep : Char) (rows : List Line) (hne : rows ≠ [])
    (h : ∀ r ∈ rows, sep ∉ r) : splitCh sep (joinSep sep rows) = rows := by
  induction rows with
  | nil => cases hne rfl
  | cons x rest ih =>
    cases rest with
    | nil => exact splitCh_no_sep sep x (h x (List.mem_cons_self x []))
    | cons y r2 =>
      show splitCh sep (x ++ sep :: joinSep sep (y :: r2)) = x :: y :: r2
      rw [splitCh_append_sep sep x _ (h x (List.mem_cons_self x _))]
      rw [ih (List.cons_ne_nil y r2) (fun r hr => h r (List.mem_cons_of_mem x hr))]

theorem dlookup_dictSet (d k : Line) (v : α) (m : List (Line × α)) :
    dlookup d (dictSet m k v) = if k = d then some v else dlookup d m := by
  induction m with
  | nil => rfl
  | cons kv rest ih =>
    obtain ⟨k', v'⟩ := kv
    by_cases h1 : k' = k
    · subst h1
      by_cases h2 : k' = d
      · simp [dictSet, dlookup, h2]
      · simp [dictSet, dlookup, h2]
    · by_cases h2 : k' = d
      · have hk : ¬k = d := fun hc => h1 (h2.trans hc.symm)
        have hk2 : ¬d = k := fun hc => hk hc.symm
        simp [dictSet, dlookup, h1, h2, hk, hk2]
      · simp [dictSet, dlookup, h1, h2, ih]

theorem dlookup_mem (d : Line) (v : α) (m : List (Line × α))
    (h : dlookup d m = some v) : (d, v) ∈ m := by
  induction m with
  | nil => cases h
  | cons kv rest ih =>
    obtain ⟨k, v'⟩ := kv
    by_cases hk : k = d
    · subst hk
      rw [show dlookup k ((k, v') :: rest) = some v' from by simp [dlookup]] at h
      injection h with h'
      subst h'
      exact List.mem_cons_self _ _
    · rw [show dlookup d ((k, v') :: rest) = dlookup d rest from by simp [dlookup, hk]] at h
      exact List.mem_cons_of_mem _ (ih h)

theorem dlookup_mergeAnn_both (ents rels : List (Line × Line)) (d e r : Line)
    (he : dlookup d ents = some e) (hr : dlookup d rels = some r) :
    dlookup d (mergeAnn ents rels) = some (e ++ '\n' :: r) := by
  induction ents with
  | nil => cases he
  | cons kv rest ih =>
    obtain ⟨k, v⟩ := kv
    rw [show mergeAnn ((k, v) :: rest) rels =
      (match dlookup k rels with
        | some r' => (k, v ++ '\n' :: r')
        | none => (k, v)) :: mergeAnn rest rels from rfl]
    by_cases hk : k = d
    · subst hk
      rw [show dlookup k ((k, v) :: rest) = some v from by simp [dlookup]] at he
      injection he with he'
      subst he'
      rw [hr]
      simp [dlookup]
    · rw [show dlookup d ((k, v) :: rest) = dlookup d rest from by simp [dlookup, hk]] at he
      cases hkr : dlookup k rels with
      | none => simp only [hkr]; simp [dlookup, hk, ih he]
      | some r' => simp only [hkr]; simp [dlookup, hk, ih he]

theorem dlookup_mergeAnn_ent_only (ents rels : List (Line × Line)) (d e : Line)
    (he : dlookup d ents = some e) (hr : dlookup d rels = none) :
    dlookup d (mergeAnn ents rels) = some e := by
  induction ents with
  | nil => cases he
  | cons kv rest ih =>
    obtain ⟨k, v⟩ := kv
    rw [show mergeAnn ((k, v) :: rest) rels =
      (match dlookup k rels with
        | some r' => (k, v ++ '\n' :: r')
        | none => (k, v)) :: mergeAnn rest rels from rfl]
    by_cases hk : k = d
    · subst hk
      rw [show dlookup k ((k, v) :: rest) = some v from by simp [dlookup]] at he
      injection he with he'
      subst he'
      rw [hr]
      simp [dlookup]
    · rw [show dlookup d ((k, v) :: rest) = dlookup d rest from by simp [dlookup, hk]] at he
      cases hkr : dlookup k rels with
      | none => simp only [hkr]; simp [dlookup, hk, ih he]
      | some r' => simp only [hkr]; simp [dlookup, hk, ih he]

theorem dlookup_mergeAnn_none (ents rels : List (Line × Line)) (d : Line)
    (he : dlookup d ents = none) : dlookup d (mergeAnn ents rels) = none := by
  induction ents with
  | nil => rfl
  | cons kv rest ih =>
    obtain ⟨k, v⟩ := kv
    rw [show mergeAnn ((k, v) :: rest) rels =
      (match dlookup k rels with
        | some r' => (k, v ++ '\n' :: r')
        | none => (k, v)) :: mergeAnn rest rels from rfl]
    by_cases hk : k = d
    · subst hk
      rw [show dlookup k ((k, v) :: rest) = some v from by simp [dlookup]] at he
      cases he
    · rw [show dlookup d ((k, v) :: rest) = dlookup d rest from by simp [dlookup, hk]] at he
      cases hkr : dlookup k rels with
      | none => simp only [hkr]; simp [dlookup, hk, ih he]
      | some r' => simp only [hkr]; simp [dlookup, hk, ih he]

theorem abstFold_absent (d : Line) :
    ∀ (rows : List Line) (m : List (Line × Line)), (∀ r ∈ rows, abstKey r ≠ d) →
      dlookup d (abstFold m rows) = dlookup d m := by
  intro rows
  induction rows with
  | nil => intro m _; rfl
  | cons r rest ih =>
    intro m h
    rw [show abstFold m (r :: rest) = abstFold (dictSet m (abstKey r) (abstVal r)) rest from rfl]
    rw [ih _ (fun r' h' => h r' (List.mem_cons_of_mem r h'))]
    rw [dlookup_dictSet]
    rw [if_neg (h r (List.mem_cons_self r rest))]

theorem abstFold_lookup (d : Line) :
    ∀ (rows : List Line) (m : List (Line × Line)) (v : Line),
      (∃ r ∈ rows, abstKey r = d) → (∀ r ∈ rows, abstKey r = d → abstVal r = v) →
      dlookup d (abstFold m rows) = some v := by
  intro rows
  induction rows with
  | nil => intro m v hex _; obtain ⟨r, hr, _⟩ := hex; cases hr
  | cons r rest ih =>
    intro m v hex hall
    rw [show abstFold m (r :: rest) = abstFold (dictSet m (abstKey r) (abstVal r)) rest from rfl]
    by_cases hrest : ∃ r' ∈ rest, abstKey r' = d
    · exact ih _ v hrest (fun r' h' hk => hall r' (List.mem_cons_of_mem r h') hk)
    · have hr : abstKey r = d := by
        obtain ⟨r', hr', hk⟩ := hex
        rcases List.mem_cons.mp hr' with h' | h'
        · exact h' ▸ hk
        · exact absurd ⟨r', h', hk⟩ hrest
      rw [abstFold_absent d rest _ (fun r' h' hk => hrest ⟨r', h', hk⟩)]
      rw [dlookup_dictSet, if_pos hr]
      rw [hall r (List.mem_cons_self r rest) hr]

theorem entCore_ne_nil (p T lab so eo txt : Line) : entCore p T lab so eo txt ≠ [] :=
  List.append_ne_nil_of_right_ne_nil p (List.cons_ne_nil _ _)

theorem entCore_head (p T lab so eo txt : Line) (hp : p ≠ []) :
    (entCore p T lab so eo txt).headD 'a' = p.headD 'a' :=
  headD_append_left _ _ _ hp

theorem entCore_rev (p T lab so eo txt : Line) (htxt : txt ≠ []) :
    (entCore p T lab so eo txt).reverse.headD 'a' = txt.reverse.headD 'a' := by
  unfold entCore
  rw [revHead_skip p '\t' _ (List.append_ne_nil_of_right_ne_nil T (List.cons_ne_nil _ _)) 'a']
  rw [revHead_skip T '\t' _ (List.append_ne_nil_of_right_ne_nil lab (List.cons_ne_nil _ _)) 'a']
  rw [revHead_skip lab '\t' _ (List.append_ne_nil_of_right_ne_nil so (List.cons_ne_nil _ _)) 'a']
  rw [revHead_skip so '\t' _ (List.append_ne_nil_of_right_ne_nil eo (List.cons_ne_nil _ _)) 'a']
  rw [revHead_skip eo '\t' txt htxt 'a']

theorem pyStrip_mkEntLine (p T lab so eo txt : Line) (hp : CleanField p)
    (htxt : CleanField txt) :
    pyStrip (mkEntLine p T lab so eo txt) = entCore p T lab so eo txt := by
  unfold mkEntLine
  apply pyStrip_append_ws
  · exact entCore_ne_nil p T lab so eo txt
  · rw [entCore_head p T lab so eo txt hp.1]; exact hp.2.2.1
  · rw [entCore_rev p T lab so eo txt htxt.1]; exact htxt.2.2.2
  · decide

theorem splitCh_entCore (p T lab so eo txt : Line) (hp : '\t' ∉ p) (hT : '\t' ∉ T)
    (hlab : '\t' ∉ lab) (hso : '\t' ∉ so) (heo : '\t' ∉ eo) (htxt : '\t' ∉ txt) :
    splitCh '\t' (entCore p T lab so eo txt) = [p, T, lab, so, eo, txt] := by
  unfold entCore
  rw [splitCh_append_sep '\t' p _ hp, splitCh_append_sep '\t' T _ hT,
    splitCh_append_sep '\t' lab _ hlab, splitCh_append_sep '\t' so _ hso,
    splitCh_append_sep '\t' eo _ heo, splitCh_no_sep '\t' txt htxt]

theorem entStepRow_ok (acc : List (Line × List Line)) (p : Line) (r : EntRow)
    (hp : CleanField p) (hr : CleanEntRow r) :
    entStep acc (mkEntLineRow p r) = .ok (dictAppend acc p (fmtEntRow r)) := by
  obtain ⟨h1, h2, h3, h4, h5⟩ := hr
  unfold mkEntLineRow fmtEntRow entStep
  have hne : mkEntLine p r.typ r.lab r.so r.eo r.txt ≠ [] :=
    List.append_ne_nil_of_right_ne_nil _ (List.cons_ne_nil _ _)
  rw [if_neg hne]
  rw [pyStrip_mkEntLine p r.typ r.lab r.so r.eo r.txt hp h5]
  rw [splitCh_entCore p r.typ r.lab r.so r.eo r.txt
    hp.2.1 h1.2.1 h2.2.1 h3.2.1 h4.2.1 h5.2.1]

theorem entFold_same (p : Line) (hp : CleanField p) :
    ∀ (rows : List EntRow) (anns : List Line), (∀ r ∈ rows, CleanEntRow r) →
      List.foldlM entStep [(p, anns)] (rows.map (mkEntLineRow p)) =
        .ok [(p, anns ++ rows.map fmtEntRow)] := by
  intro rows
  induction rows with
  | nil =>
    intro anns _
    simp only [List.map_nil, List.foldlM_nil, List.append_nil]
    rfl
  | cons r rest ih =>
    intro anns h
    have hbind : ∀ (a : List (Line × List Line))
        (k : List (Line × List Line) → Except Unit (List (Line × List Line))),
        (Except.ok a >>= k) = k a := fun _ _ => rfl
    rw [List.map_cons, List.foldlM_cons,
      entStepRow_ok _ p r hp (h r (List.mem_cons_self r rest))]
    simp only [hbind]
    rw [show dictAppend [(p, anns)] p (fmtEntRow r) = [(p, anns ++ [fmtEntRow r])] from by
      simp [dictAppend]]
    rw [ih (anns ++ [fmtEntRow r]) (fun r' h' => h r' (List.mem_cons_of_mem r h'))]
    simp

theorem entFold_all (p : Line) (hp : CleanField p) (rows : List EntRow)
    (h : ∀ r ∈ rows, CleanEntRow r) (hne : rows ≠ []) :
    List.foldlM entStep [] (rows.map (mkEntLineRow p)) = .ok [(p, rows.map fmtEntRow)] := by
  cases rows with
  | nil => cases hne rfl
  | cons r rest =>
    have hbind : ∀ (a : List (Line × List Line))
        (k : List (Line × List Line) → Except Unit (List (Line × List Line))),
        (Except.ok a >>= k) = k a := fun _ _ => rfl
    rw [List.map_cons, List.foldlM_cons,
      entStepRow_ok [] p r hp (h r (List.mem_cons_self r rest))]
    simp only [hbind]
    rw [show dictAppend [] p (fmtEntRow r) = [(p, [fmtEntRow r])] from rfl]
    rw [entFold_same p hp rest [fmtEntRow r] (fun r' h' => h r' (List.mem_cons_of_mem r h'))]
    simp

theorem entStep_error (acc : List (Line × List Line)) (line : Line) (hne : line ≠ [])
    (hlen : (splitCh '\t' (pyStrip line)).length ≠ 6) : entStep acc line = .error () := by
  unfold entStep
  rw [if_neg hne]
  rcases h : splitCh '\t' (pyStrip line) with
    _ | ⟨a1, _ | ⟨a2, _ | ⟨a3, _ | ⟨a4, _ | ⟨a5, _ | ⟨a6, _ | ⟨a7, t7⟩⟩⟩⟩⟩⟩⟩
  · rfl
  · rfl
  · rfl
  · rfl
  · rfl
  · rfl
  · rw [h] at hlen; simp at hlen
  · rfl

theorem entFold_error (L : Line) (h1 : pyStrip L ≠ [])
    (h2 : (splitCh '\t' (pyStrip L)).length ≠ 6) :
    ∀ (f : List Line) (acc : List (Line × List Line)), L ∈ f →
      List.foldlM entStep acc f = .error () := by
  intro f
  induction f with
  | nil => intro acc h; cases h
  | cons x xs ih =>
    intro acc hmem
    rw [List.foldlM_cons]
    rcases List.mem_cons.mp hmem with h | h
    · subst h
      rw [entStep_error acc L (fun he => h1 (by rw [he]; rfl)) h2]
      rfl
    · cases hstep : entStep acc x with
      | error e => cases e; rfl
      | ok acc' => exact ih acc' h

theorem convert_entities_error (f : List Line) (L : Line) (hm : L ∈ f)
    (h1 : pyStrip L ≠ []) (h2 : (splitCh '\t' (pyStrip L)).length ≠ 6) :
    convert_entities_to_standoff f = .error () := by
  unfold convert_entities_to_standoff
  rw [entFold_error L h1 h2 f [] hm]

theorem relStep_error (st : Nat × List (Line × List Line)) (line : Line) (hne : line ≠ [])
    (hlen : (splitCh '\t' (pyStrip line)).length ≠ 4) : relStep st line = .error () := by
  unfold relStep
  rw [if_neg hne]
  rcases h : splitCh '\t' (pyStrip line) with
    _ | ⟨a1, _ | ⟨a2, _ | ⟨a3, _ | ⟨a4, _ | ⟨a5, t5⟩⟩⟩⟩⟩
  · rfl
  · rfl
  · rfl
  · rfl
  · rw [h] at hlen; simp at hlen
  · rfl

theorem relFold_error (L : Line) (h1 : pyStrip L ≠ [])
    (h2 : (splitCh '\t' (pyStrip L)).length ≠ 4) :
    ∀ (f : List Line) (st : Nat × List (Line × List Line)), L ∈ f →
      List.foldlM relStep st f = .error () := by
  intro f
  induction f with
  | nil => intro st h; cases h
  | cons x xs ih =>
    intro st hmem
    rw [List.foldlM_cons]
    rcases List.mem_cons.mp hmem with h | h
    · subst h
      rw [relStep_error st L (fun he => h1 (by rw [he]; rfl)) h2]
      rfl
    · cases hstep : relStep st x with
      | error e => cases e; rfl
      | ok st' => exact ih st' h

theorem convert_relations_error (f : List Line) (L : Line) (hm : L ∈ f)
    (h1 : pyStrip L ≠ []) (h2 : (splitCh '\t' (pyStrip L)).length ≠ 4) :
    convert_relations_to_standoff f = .error () := by
  unfold convert_relations_to_standoff
  rw [relFold_error L h1 h2 f (1, []) hm]

theorem entHead5_ne_nil (p T lab so eo : Line) : entHead5 p T lab so eo ≠ [] :=
  List.append_ne_nil_of_right_ne_nil p (List.cons_ne_nil _ _)

theorem entHead5_head (p T lab so eo : Line) (hp : p ≠ []) :
    (entHead5 p T lab so eo).headD 'a' = p.headD 'a' :=
  headD_append_left _ _ _ hp

theorem entHead5_rev (p T lab so eo : Line) (heo : eo ≠ []) :
    (entHead5 p T lab so eo).reverse.headD 'a' = eo.reverse.headD 'a' := by
  unfold entHead5
  rw [revHead_skip p '\t' _ (List.append_ne_nil_of_right_ne_nil T (List.cons_ne_nil _ _)) 'a']
  rw [revHead_skip T '\t' _ (List.append_ne_nil_of_right_ne_nil lab (List.cons_ne_nil _ _)) 'a']
  rw [revHead_skip lab '\t' _ (List.append_ne_nil_of_right_ne_nil so (List.cons_ne_nil _ _)) 'a']
  rw [revHead_skip so '\t' eo heo 'a']

theorem mkEntLine_empty_last (p T lab so eo : Line) :
    mkEntLine p T lab so eo [] = entHead5 p T lab so eo ++ ['\t', '\n'] := by
  simp [mkEntLine, entCore, entHead5, List.append_assoc]

theorem pyStrip_entLine_empty_last (p T lab so eo : Line) (hp : CleanField p)
    (heo : CleanField eo) :
    pyStrip (mkEntLine p T lab so eo []) = entHead5 p T lab so eo := by
  rw [mkEntLine_empty_last]
  apply pyStrip_append_ws
  · exact entHead5_ne_nil p T lab so eo
  · rw [entHead5_head p T lab so eo hp.1]; exact hp.2.2.1
  · rw [entHead5_rev p T lab so eo heo.1]; exact heo.2.2.2
  · decide

theorem splitCh_entHead5 (p T lab so eo : Line) (hp : '\t' ∉ p) (hT : '\t' ∉ T)
    (hlab : '\t' ∉ lab) (hso : '\t' ∉ so) (heo : '\t' ∉ eo) :
    splitCh '\t' (entHead5 p T lab so eo) = [p, T, lab, so, eo] := by
  unfold entHead5
  rw [splitCh_append_sep '\t' p _ hp, splitCh_append_sep '\t' T _ hT,
    splitCh_append_sep '\t' lab _ hlab, splitCh_append_sep '\t' so _ hso,
    splitCh_no_sep '\t' eo heo]

theorem relHead3_ne_nil (p lab a1 : Line) : relHead3 p lab a1 ≠ [] :=
  List.append_ne_nil_of_right_ne_nil p (List.cons_ne_nil _ _)

theorem relHead3_head (p lab a1 : Line) (hp : p ≠ []) :
    (relHead3 p lab a1).headD 'a' = p.headD 'a' :=
  headD_append_left _ _ _ hp

theorem relHead3_rev (p lab a1 : Line) (ha1 : a1 ≠ []) :
    (relHead3 p lab a1).reverse.headD 'a' = a1.reverse.headD 'a' := by
  unfold relHead3
  rw [revHead_skip p '\t' _ (List.append_ne_nil_of_right_ne_nil lab (List.cons_ne_nil _ _)) 'a']
  rw [revHead_skip lab '\t' a1 ha1 'a']

theorem mkRelLine_empty_last (p lab a1 : Line) :
    mkRelLine p lab a1 [] = relHead3 p lab a1 ++ ['\t', '\n'] := by
  simp [mkRelLine, relCore, relHead3, List.append_assoc]

theorem pyStrip_relLine_empty_last (p lab a1 : Line) (hp : CleanField p)
    (ha1 : CleanField a1) :
    pyStrip (mkRelLine p lab a1 []) = relHead3 p lab a1 := by
  rw [mkRelLine_empty_last]
  apply pyStrip_append_ws
  · exact relHead3_ne_nil p lab a1
  · rw [relHead3_head p lab a1 hp.1]; exact hp.2.2.1
  · rw [relHead3_rev p lab a1 ha1.1]; exact ha1.2.2.2
  · decide

theorem splitCh_relHead3 (p lab a1 : Line) (hp : '\t' ∉ p) (hlab : '\t' ∉ lab)
    (ha1 : '\t' ∉ a1) : splitCh '\t' (relHead3 p lab a1) = [p, lab, a1] := by
  unfold relHead3
  rw [splitCh_append_sep '\t' p _ hp, splitCh_append_sep '\t' lab _ hlab,
    splitCh_no_sep '\t' a1 ha1]

/-- Claim C1: the spec states that relation identifiers form the contiguous
sequence R1, R2, R3 from 1 within each document, independently of other
documents, for any interleaving of rows. The source instead keeps one
shared counter that is reset only when a row of a never-seen document id
arrives, so interleaving leaks one document count into another: on the
input below, document PMID1 receives identifiers R1 and R3, skipping R2.
This theorem evaluates the relation parser at that input. -/
theorem relation_counter_shared_across_documents :
    convert_relations_to_standoff
      ["PMID1\tCPR:3\tArg1:T1\tArg2:T2\n".data,
       "PMID2\tCPR:4\tArg1:T3\tArg2:T4\n".data,
       "PMID2\tCPR:5\tArg1:T5\tArg2:T6\n".data,
       "PMID1\tCPR:6\tArg1:T7\tArg2:T8\n".data] =
    .ok [("PMID1".data, "R1\tCPR:3 Arg1:T1 Arg2:T2\nR3\tCPR:6 Arg1:T7 Arg2:T8".data),
         ("PMID2".data, "R1\tCPR:4 Arg1:T3 Arg2:T4\nR2\tCPR:5 Arg1:T5 Arg2:T6".data)] :=
  rfl

/-- Claim C2, counterexample: a document id present only in the relation
mapping is dropped by the merge loop, which iterates over entity keys only,
so no annotation file is written for it: here document 16005321 has a
relation block but no entry in the merged dict and no output file. -/
theorem relation_only_document_gets_no_ann_entry :
    mergeAnn [("10200320".data, "T1\tCHEMICAL 0 7\taspirin".data)]
        [("10200320".data, "R1\tCPR:3 Arg1:T1 Arg2:T2".data),
         ("16005321".data, "R1\tCPR:4 Arg1:T3 Arg2:T4".data)] =
      [("10200320".data, "T1\tCHEMICAL 0 7\taspirin\nR1\tCPR:3 Arg1:T1 Arg2:T2".data)] ∧
    dlookup "16005321".data
      (mergeAnn [("10200320".data, "T1\tCHEMICAL 0 7\taspirin".data)]
        [("10200320".data, "R1\tCPR:3 Arg1:T1 Arg2:T2".data),
         ("16005321".data, "R1\tCPR:4 Arg1:T3 Arg2:T4".data)]) = none ∧
    (write_to_disk
        (mergeAnn [("10200320".data, "T1\tCHEMICAL 0 7\taspirin".data)]
          [("10200320".data, "R1\tCPR:3 Arg1:T1 Arg2:T2".data),
           ("16005321".data, "R1\tCPR:4 Arg1:T3 Arg2:T4".data)])
        "out".data "ann".data).map Prod.fst = ["out/10200320.ann".data] :=
  ⟨rfl, rfl, rfl⟩

/-- Claim C2, amended: a document id present only in the entity mapping
keeps its entity block unmodified in the merged output and an annotation
file holding that block is written for it; a document id absent from the
entity mapping, in particular one present only in the relation mapping,
gets no merged entry at all, hence no annotation file. -/
theorem entity_only_kept_relation_only_dropped (ents rels : List (Line × Line))
    (odir ext d e : Line) :
    (dlookup d ents = some e → dlookup d rels = none →
      dlookup d (mergeAnn ents rels) = some e ∧
        (mkPath odir d ext, e) ∈ write_to_disk (mergeAnn ents rels) odir ext) ∧
    (dlookup d ents = none → dlookup d (mergeAnn ents rels) = none) := by
  constructor
  · intro he hr
    have hm := dlookup_mergeAnn_ent_only ents rels d e he hr
    refine ⟨hm, ?_⟩
    exact List.mem_map.mpr ⟨(d, e), dlookup_mem d e (mergeAnn ents rels) hm, rfl⟩
  · intro he
    exact dlookup_mergeAnn_none ents rels d he

/-- Witness for the amended claim C2 at a concrete entity-only document and
a concrete relation-only document. -/
theorem entity_only_kept_relation_only_dropped_witness :
    dlookup "10200320".data [("10200320".data, "E1".data)] = some "E1".data ∧
    dlookup "10200320".data [("99".data, "RB".data)] = (none : Option Line) ∧
    (dlookup "10200320".data
        (mergeAnn [("10200320".data, "E1".data)] [("99".data, "RB".data)]) =
        some "E1".data ∧
      (mkPath "out".data "10200320".data "ann".data, "E1".data) ∈
        write_to_disk (mergeAnn [("10200320".data, "E1".data)] [("99".data, "RB".data)])
          "out".data "ann".data) ∧
    dlookup "99".data (mergeAnn [("10200320".data, "E1".data)] [("99".data, "RB".data)]) =
      none :=
  ⟨rfl, rfl,
    (entity_only_kept_relation_only_dropped [("10200320".data, "E1".data)]
      [("99".data, "RB".data)] "out".data "ann".data "10200320".data "E1".data).1 rfl rfl,
    (entity_only_kept_relation_only_dropped [("10200320".data, "E1".data)]
      [("99".data, "RB".data)] "out".data "ann".data "99".data "E1".data).2 rfl⟩

/-- Claim C3: the spec says blank lines are skipped by the entity and
relation parsers. In the source a blank line read from a file is the
one-character string holding a newline, which is truthy, so the guard
never skips it; stripping it yields the empty string, whose tab-split has
one field, and tuple unpacking raises ValueError. The parsers therefore
fail on a blank line instead of ignoring it, as these evaluations show:
with the blank line removed the same input converts successfully. -/
theorem blank_line_raises_parse_error :
    convert_entities_to_standoff
      ["10200320\tT1\tCHEMICAL\t0\t7\taspirin\n".data, "\n".data] = .error () ∧
    convert_entities_to_standoff
      ["10200320\tT1\tCHEMICAL\t0\t7\taspirin\n".data] =
      .ok [("10200320".data, "T1\tCHEMICAL 0 7\taspirin".data)] ∧
    convert_relations_to_standoff
      ["10200320\tCPR:3\tArg1:T1\tArg2:T2\n".data, "\n".data] = .error () ∧
    convert_relations_to_standoff
      ["10200320\tCPR:3\tArg1:T1\tArg2:T2\n".data] =
      .ok [("10200320".data, "R1\tCPR:3 Arg1:T1 Arg2:T2".data)] :=
  ⟨rfl, rfl, rfl, rfl⟩

/-- Claim C4: a document id present in both the entity dict and the
relation dict ends up mapped to the entity block, one newline, then the
relation block, never the reverse order. -/
theorem merged_body_entity_block_first (ents rels : List (Line × Line)) (d e r : Line)
    (he : dlookup d ents = some e) (hr : dlookup d rels = some r) :
    dlookup d (mergeAnn ents rels) = some (e ++ '\n' :: r) :=
  dlookup_mergeAnn_both ents rels d e r he hr

/-- Witness for claim C4 at a concrete document present in both dicts. -/
theorem merged_body_entity_block_first_witness :
    dlookup "P1".data [("P1".data, "EB".data)] = some "EB".data ∧
    dlookup "P1".data [("P1".data, "RB".data)] = some "RB".data ∧
    dlookup "P1".data (mergeAnn [("P1".data, "EB".data)] [("P1".data, "RB".data)]) =
      some "EB\nRB".data :=
  ⟨rfl, rfl,
    (merged_body_entity_block_first [("P1".data, "EB".data)] [("P1".data, "RB".data)]
      "P1".data "EB".data "RB".data rfl rfl).trans rfl⟩

/-- Claim C5: for a file of well-formed entity rows all sharing one
document id, the entity parser succeeds and maps that id to the newline
join, in input row order, of one formatted line per row, each field kept
verbatim. -/
theorem entity_block_preserves_rows (p : Line) (rows : List EntRow)
    (hp : CleanField p) (h : ∀ r ∈ rows, CleanEntRow r) (hne : rows ≠ []) :
    convert_entities_to_standoff (rows.map (mkEntLineRow p)) =
      .ok [(p, joinNl (rows.map fmtEntRow))] := by
  unfold convert_entities_to_standoff
  rw [entFold_all p hp rows h hne]
  rfl

/-- Witness for claim C5 at the two example rows of the spec. -/
theorem entity_block_preserves_rows_witness :
    CleanField "PMID1".data ∧
    (∀ r ∈ [EntRow.mk "T1".data "CHEMICAL".data "0".data "5".data "aspirin".data,
            EntRow.mk "T2".data "GENE".data "10".data "15".data "COX-2".data],
      CleanEntRow r) ∧
    convert_entities_to_standoff
      (([EntRow.mk "T1".data "CHEMICAL".data "0".data "5".data "aspirin".data,
         EntRow.mk "T2".data "GENE".data "10".data "15".data "COX-2".data]).map
        (mkEntLineRow "PMID1".data)) =
      .ok [("PMID1".data, "T1\tCHEMICAL 0 5\taspirin\nT2\tGENE 10 15\tCOX-2".data)] :=
  ⟨by decide, by decide,
    (entity_block_preserves_rows "PMID1".data
      [EntRow.mk "T1".data "CHEMICAL".data "0".data "5".data "aspirin".data,
       EntRow.mk "T2".data "GENE".data "10".data "15".data "COX-2".data]
      (by decide) (by decide) (List.cons_ne_nil _ _)).trans rfl⟩

/-- Claim C6: for a valid abstract row inside a file of clean rows, the
parser output keyed by the first tab-field of that row is the remainder of
the row with each tab separator replaced by a newline. -/
theorem abstract_row_maps_id_to_body (rows : List Line) (r d : Line)
    (hc : ∀ x ∈ rows, CleanRow x) (hmem : r ∈ rows)
    (hkey : (splitCh '\t' r).headD [] = d)
    (_hlen : 2 ≤ (splitCh '\t' r).length)
    (huniq : ∀ x ∈ rows, (splitCh '\t' x).headD [] = d → x = r) :
    dlookup d (convert_abstracts_to_standoff (joinSep '\n' rows)) =
      some (joinSep '\n' (splitCh '\t' r).tail) := by
  have hne : rows ≠ [] := by intro h; subst h; cases hmem
  unfold convert_abstracts_to_standoff
  rw [pyStrip_joinSep rows hne hc,
    splitCh_joinSep '\n' rows hne (fun x hx => (hc x hx).2.1)]
  have hv : abstVal r = joinSep '\n' (splitCh '\t' r).tail := rfl
  rw [← hv]
  exact abstFold_lookup d rows [] (abstVal r) ⟨r, hmem, hkey⟩
    (fun x hx hk => by rw [huniq x hx hk])

/-- Witness for claim C6 at a two-document abstracts file. -/
theorem abstract_row_maps_id_to_body_witness :
    (∀ x ∈ ["PMID1\tTitle\tBody".data, "PMID2\tT2\tB2".data], CleanRow x) ∧
    "PMID1\tTitle\tBody".data ∈ ["PMID1\tTitle\tBody".data, "PMID2\tT2\tB2".data] ∧
    (splitCh '\t' "PMID1\tTitle\tBody".data).headD [] = "PMID1".data ∧
    2 ≤ (splitCh '\t' "PMID1\tTitle\tBody".data).length ∧
    dlookup "PMID1".data
      (convert_abstracts_to_standoff
        (joinSep '\n' ["PMID1\tTitle\tBody".data, "PMID2\tT2\tB2".data])) =
      some "Title\nBody".data :=
  ⟨by decide, by decide, by decide, by decide,
    (abstract_row_maps_id_to_body ["PMID1\tTitle\tBody".data, "PMID2\tT2\tB2".data]
      "PMID1\tTitle\tBody".data "PMID1".data (by decide) (by decide) (by decide)
      (by decide) (by decide)).trans rfl⟩

/-- Claim C7: an abstract line holding no tab is mapped, as its own key, to
the empty string as body. -/
theorem abstract_line_without_tab_maps_to_empty (rows : List Line) (r : Line)
    (hc : ∀ x ∈ rows, CleanRow x) (hmem : r ∈ rows) (hnt : '\t' ∉ r)
    (huniq : ∀ x ∈ rows, (splitCh '\t' x).headD [] = r → x = r) :
    dlookup r (convert_abstracts_to_standoff (joinSep '\n' rows)) = some [] := by
  have hne : rows ≠ [] := by intro h; subst h; cases hmem
  have hkey : abstKey r = r := by
    unfold abstKey; rw [splitCh_no_sep '\t' r hnt]; rfl
  have hval : abstVal r = [] := by
    unfold abstVal; rw [splitCh_no_sep '\t' r hnt]; rfl
  unfold convert_abstracts_to_standoff
  rw [pyStrip_joinSep rows hne hc,
    splitCh_joinSep '\n' rows hne (fun x hx => (hc x hx).2.1)]
  rw [← hval]
  exact abstFold_lookup r rows [] (abstVal r) ⟨r, hmem, hkey⟩
    (fun x hx hk => by rw [huniq x hx hk])

/-- Witness for claim C7 at a file whose second line has no tab. -/
theorem abstract_line_without_tab_maps_to_empty_witness :
    (∀ x ∈ ["PMID1\tTitle\tBody".data, "PMID9".data], CleanRow x) ∧
    "PMID9".data ∈ ["PMID1\tTitle\tBody".data, "PMID9".data] ∧
    '\t' ∉ "PMID9".data ∧
    dlookup "PMID9".data
      (convert_abstracts_to_standoff
        (joinSep '\n' ["PMID1\tTitle\tBody".data, "PMID9".data])) = some [] :=
  ⟨by decide, by decide, by decide,
    abstract_line_without_tab_maps_to_empty
      ["PMID1\tTitle\tBody".data, "PMID9".data] "PMID9".data
      (by decide) (by decide) (by decide) (by decide)⟩

/-- Claim C8: a non-blank entity line whose stripped tab-split does not
have exactly six fields makes the whole entity parser fail with a parse
error. -/
theorem entity_bad_field_count_fails (f : List Line) (L : Line) (hm : L ∈ f)
    (h1 : pyStrip L ≠ []) (h2 : (splitCh '\t' (pyStrip L)).length ≠ 6) :
    convert_entities_to_standoff f = .error () :=
  convert_entities_error f L hm h1 h2

/-- Witness for claim C8 at a five-field entity line. -/
theorem entity_bad_field_count_fails_witness :
    "10200320\tT1\tCHEMICAL\t0\t7\n".data ∈ ["10200320\tT1\tCHEMICAL\t0\t7\n".data] ∧
    pyStrip "10200320\tT1\tCHEMICAL\t0\t7\n".data ≠ [] ∧
    (splitCh '\t' (pyStrip "10200320\tT1\tCHEMICAL\t0\t7\n".data)).length ≠ 6 ∧
    convert_entities_to_standoff ["10200320\tT1\tCHEMICAL\t0\t7\n".data] = .error () :=
  ⟨by decide, by decide, by decide,
    entity_bad_field_count_fails ["10200320\tT1\tCHEMICAL\t0\t7\n".data]
      "10200320\tT1\tCHEMICAL\t0\t7\n".data (by decide) (by decide) (by decide)⟩

/-- Claim C9: make_dir succeeds when the directory already exists, so two
consecutive calls on the same path both succeed, and it re-raises any
directory-creation error whose errno is not EEXIST. -/
theorem make_dir_idempotent_and_raising :
    (∀ (fs : FS) (d : Line), d ∈ fs.dirs → make_dir fs d = .ok fs) ∧
    (∀ (fs : FS) (d : Line) (fs' : FS), make_dir fs d = .ok fs' →
      make_dir fs' d = .ok fs') ∧
    (∀ (fs : FS) (d : Line) (err : OSErr), makedirs fs d = .error err →
      err.errno ≠ EEXIST → make_dir fs d = .error err) := by
  refine ⟨?_, ?_, ?_⟩
  · intro fs d h
    simp [make_dir, makedirs, h, EEXIST]
  · intro fs d fs' h
    by_cases hd : d ∈ fs.dirs
    · have h1 : make_dir fs d = .ok fs := by simp [make_dir, makedirs, hd, EEXIST]
      have h2 : fs = fs' := by
        have := h1.symm.trans h
        injection this
      subst h2
      exact h1
    · by_cases hden : d ∈ fs.denied
      · have h1 : make_dir fs d = .error ⟨EACCES⟩ := by
          simp [make_dir, makedirs, hd, hden, EACCES, EEXIST]
        rw [h1] at h
        exact Except.noConfusion h
      · have h1 : make_dir fs d = .ok ⟨fs.dirs ++ [d], fs.denied⟩ := by
          simp [make_dir, makedirs, hd, hden]
        have h2 : (⟨fs.dirs ++ [d], fs.denied⟩ : FS) = fs' := by
          have := h1.symm.trans h
          injection this
        subst h2
        have hmem : d ∈ fs.dirs ++ [d] :=
          List.mem_append.mpr (Or.inr (List.mem_singleton.mpr rfl))
        simp [make_dir, makedirs, hmem, EEXIST]
  · intro fs d err hmk hne
    unfold make_dir
    rw [hmk]
    exact if_pos hne

/-- Witness for claim C9: a directory that already exists, a successful
creation followed by a second call, and a denied creation whose error is
re-raised. -/
theorem make_dir_idempotent_and_raising_witness :
    make_dir ⟨["out".data], []⟩ "out".data = .ok ⟨["out".data], []⟩ ∧
    make_dir ⟨[], []⟩ "out".data = .ok ⟨["out".data], []⟩ ∧
    make_dir ⟨["out".data], []⟩ "out".data = .ok ⟨["out".data], []⟩ ∧
    makedirs ⟨[], ["out".data]⟩ "out".data = .error ⟨EACCES⟩ ∧
    make_dir ⟨[], ["out".data]⟩ "out".data = .error ⟨EACCES⟩ :=
  ⟨make_dir_idempotent_and_raising.1 ⟨["out".data], []⟩ "out".data (by decide),
   rfl,
   make_dir_idempotent_and_raising.2.1 ⟨[], []⟩ "out".data ⟨["out".data], []⟩ rfl,
   rfl,
   make_dir_idempotent_and_raising.2.2 ⟨[], ["out".data]⟩ "out".data ⟨EACCES⟩ rfl
     (by decide)⟩

/-- Claim C10: an entity row with exactly six tab-separated fields whose
final surface-text field is empty ends in a tab, which the initial strip
removes together with the newline, so the split sees five fields and the
parser raises a parse error; likewise a relation row of exactly four
fields ending in a tab is reduced to three fields and rejected. -/
theorem trailing_tab_row_rejected (p T lab so eo q rl a1 : Line)
    (hp : CleanField p) (hT : CleanField T) (hlab : CleanField lab)
    (hso : CleanField so) (heo : CleanField eo)
    (hq : CleanField q) (hrl : CleanField rl) (ha1 : CleanField a1) :
    convert_entities_to_standoff [mkEntLine p T lab so eo []] = .error () ∧
    convert_relations_to_standoff [mkRelLine q rl a1 []] = .error () := by
  constructor
  · apply convert_entities_error _ (mkEntLine p T lab so eo [])
      (List.mem_cons_self _ _)
    · rw [pyStrip_entLine_empty_last p T lab so eo hp heo]
      exact entHead5_ne_nil p T lab so eo
    · rw [pyStrip_entLine_empty_last p T lab so eo hp heo,
        splitCh_entHead5 p T lab so eo hp.2.1 hT.2.1 hlab.2.1 hso.2.1 heo.2.1]
      simp
  · apply convert_relations_error _ (mkRelLine q rl a1 [])
      (List.mem_cons_self _ _)
    · rw [pyStrip_relLine_empty_last q rl a1 hq ha1]
      exact relHead3_ne_nil q rl a1
    · rw [pyStrip_relLine_empty_last q rl a1 hq ha1,
        splitCh_relHead3 q rl a1 hq.2.1 hrl.2.1 ha1.2.1]
      simp

/-- Witness for claim C10 at concrete rows: the six-field entity line with
empty surface text and the four-field relation line with empty second
argument are shown literally and both are rejected. -/
theorem trailing_tab_row_rejected_witness :
    mkEntLine "10200320".data "T1".data "CHEMICAL".data "0".data "7".data [] =
      "10200320\tT1\tCHEMICAL\t0\t7\t\n".data ∧
    mkRelLine "10200320".data "CPR:3".data "Arg1:T1".data [] =
      "10200320\tCPR:3\tArg1:T1\t\n".data ∧
    CleanField "10200320".data ∧
    convert_entities_to_standoff
      [mkEntLine "10200320".data "T1".data "CHEMICAL".data "0".data "7".data []] =
      .error () ∧
    convert_relations_to_standoff
      [mkRelLine "10200320".data "CPR:3".data "Arg1:T1".data []] = .error () :=
  ⟨rfl, rfl, by decide,
    (trailing_tab_row_rejected "10200320".data "T1".data "CHEMICAL".data "0".data
      "7".data "10200320".data "CPR:3".data "Arg1:T1".data (by decide) (by decide)
      (by decide) (by decide) (by decide) (by decide) (by decide) (by decide)).1,
    (trailing_tab_row_rejected "10200320".data "T1".data "CHEMICAL".data "0".data
      "7".data "10200320".data "CPR:3".data "Arg1:T1".data (by decide) (by decide)
      (by decide) (by decide) (by decide) (by decide) (by decide) (by decide)).2⟩
